import Mathlib

/-!
Verification of `movie_income.py`: a pipeline that ingests a ranked list of
box-office records (remote JSON response or local CSV snapshot), normalizes
them (date parsing, year derivation, sorting), exports CSV/JSON/XLSX, and
renders five charts.  Python floats are modelled as rationals, Python values
as the inductive `PyVal`, raised exceptions as `Except` values of type
`PyErr`, and the file-writing behaviour of `main` as an explicit trace of
written paths.
-/

namespace MovieIncome

/-- Model of a Python/JSON value as it flows through the script. -/
inductive PyVal where
  | none : PyVal
  | bool : Bool → PyVal
  | int : Int → PyVal
  | float : ℚ → PyVal
  | str : String → PyVal
  | list : List PyVal → PyVal
  | dict : List (String × PyVal) → PyVal
  deriving Repr

/-- The exceptions the script can raise.  `valueEmpty` is the
`ValueError("API返回空数据集")` that the spec calls `EmptyDatasetError`. -/
inductive PyErr where
  | valueEmpty : PyErr
  | valueFloat (msg : String) : PyErr
  | typeErr (msg : String) : PyErr
  | attrErr : PyErr
  | keyErr (col : String) : PyErr
  deriving DecidableEq, Repr

/-- Python truthiness: `None`, `False`, `0`, `0.0`, `""`, `[]`, `{}` are falsy. -/
def pyTruthy : PyVal → Bool
  | .none => false
  | .bool b => b
  | .int n => n != 0
  | .float q => q != 0
  | .str s => s ≠ ""
  | .list xs => !xs.isEmpty
  | .dict kvs => !kvs.isEmpty

def digitsVal (l : List Char) : Nat :=
  l.foldl (fun a c => a * 10 + (c.toNat - 48)) 0

/-- Parse of a decimal numeral string by Python `float(...)`: optional sign,
integer digits, optional fractional part (whitespace stripping and exponents
not modelled).  `none` when the string does not denote a number. -/
def parseFloat (s : String) : Option ℚ :=
  let cs := s.toList
  let signed : Bool × List Char :=
    match cs with
    | '-' :: r => (true, r)
    | '+' :: r => (false, r)
    | r => (false, r)
  let neg := signed.1
  let body := signed.2
  let ip := body.takeWhile Char.isDigit
  let rest := body.dropWhile Char.isDigit
  let mag : Option ℚ :=
    match rest with
    | [] => if ip.isEmpty then Option.none else some (digitsVal ip : ℚ)
    | '.' :: fr =>
        if fr.all Char.isDigit && (!ip.isEmpty || !fr.isEmpty) then
          some ((digitsVal ip : ℚ) + (digitsVal fr : ℚ) / ((10 : ℚ) ^ fr.length))
        else Option.none
    | _ => Option.none
  mag.map (fun q => if neg then -q else q)

/-- Python `float(v)`: succeeds on numbers and numeric strings, raises on
non-numeric strings (`ValueError`) and on `None`/lists/dicts (`TypeError`). -/
def pyFloat : PyVal → Except PyErr ℚ
  | .int n => .ok (n : ℚ)
  | .float q => .ok q
  | .bool b => .ok (if b then 1 else 0)
  | .str s =>
      match parseFloat s with
      | some q => .ok q
      | Option.none => .error (.valueFloat "could not convert string to float")
  | .none => .error (.typeErr "float() argument must not be None")
  | .list _ => .error (.typeErr "float() argument must not be a list")
  | .dict _ => .error (.typeErr "float() argument must not be a dict")

/-- Python `d.get(k, default)` on a dict represented as an association list. -/
def dGetD (kvs : List (String × PyVal)) (k : String) (dflt : PyVal) : PyVal :=
  match kvs.lookup k with
  | some v => v
  | Option.none => dflt

/-- Python `d.get(k)` (default `None`). -/
def dGet (kvs : List (String × PyVal)) (k : String) : PyVal :=
  dGetD kvs k .none

/-- `float(item.get(key, 0) or 0)` — the numeric coercion used by `to_row`
for each of the three numeric fields. -/
def coerceNum (item : List (String × PyVal)) (key : String) : Except PyErr ℚ :=
  let v := dGetD item key (.int 0)
  pyFloat (if pyTruthy v then v else .int 0)

/-- A raw canonical row as produced by `to_row` (remote path) or by reading a
local CSV: the six canonical columns, with the non-coerced columns kept as
raw Python values. -/
structure Row where
  rank : PyVal
  name : PyVal
  release_time : PyVal
  box_office : PyVal
  avg_price : PyVal
  avg_audience : PyVal
  deriving Repr

/-- `to_row(item)` from `fetch_online`: maps one remote entry to the
canonical dict.  The three numeric fields go through
`float(item.get(K, 0) or 0)`, which can raise. -/
def to_row (item : List (String × PyVal)) : Except PyErr Row :=
  match coerceNum item "BoxOffice" with
  | .error e => .error e
  | .ok bo =>
    match coerceNum item "AvgBoxOffice" with
    | .error e => .error e
    | .ok ap =>
      match coerceNum item "AvgAudienceCount" with
      | .error e => .error e
      | .ok aa =>
          .ok { rank := dGet item "Irank"
                name := dGet item "MovieName"
                release_time := dGet item "ReleaseTime"
                box_office := .float bo
                avg_price := .float ap
                avg_audience := .float aa }

/-- Python `v.get(k, dflt)` where `v` should be a dict; non-dicts raise
`AttributeError` (as `({}).get` would on `None` or a list). -/
def getAttr (v : PyVal) (k : String) (dflt : PyVal) : Except PyErr PyVal :=
  match v with
  | .dict kvs => .ok (dGetD kvs k dflt)
  | _ => .error .attrErr

/-- `(resp.json() or {}).get('data', {}).get('table0', []) or []` — the
extraction of the raw entry list from the decoded response. -/
def extractTable (resp : PyVal) : Except PyErr (List PyVal) :=
  let j := if pyTruthy resp then resp else .dict []
  match getAttr j "data" (.dict []) with
  | .error e => .error e
  | .ok d =>
    match getAttr d "table0" (.list []) with
    | .error e => .error e
    | .ok t =>
      match (if pyTruthy t then t else .list []) with
      | .list xs => .ok xs
      | _ => .error (.typeErr "object is not iterable")

/-- Sequential, fail-fast evaluation of the list comprehension
`[to_row(x) for x in table]`. -/
def mapRows (f : PyVal → Except PyErr Row) : List PyVal → Except PyErr (List Row)
  | [] => .ok []
  | x :: xs =>
      match f x with
      | .error e => .error e
      | .ok r =>
          match mapRows f xs with
          | .error e => .error e
          | .ok rs => .ok (r :: rs)

/-- Conversion of one raw entry: `item.get` is a dict method, so non-dict
entries raise `AttributeError`. -/
def entryRow : PyVal → Except PyErr Row
  | .dict kvs => to_row kvs
  | _ => .error .attrErr

/-- `fetch_online`, from the decoded JSON response onward (the HTTP transport
is out of scope).  Raises `ValueError("API返回空数据集")` on an empty frame. -/
def fetch_online (resp : PyVal) : Except PyErr (List Row) :=
  match extractTable resp with
  | .error e => .error e
  | .ok xs =>
    match mapRows entryRow xs with
    | .error e => .error e
    | .ok rows => if rows.isEmpty then .error .valueEmpty else .ok rows

/-! ### Local snapshot (`read_local`) -/

/-- A CSV file: a header row of column names and the data rows as strings. -/
structure Table where
  header : List String
  cells : List (List String)

/-- The column of raw cell strings under a given header name (first match),
`none` when the name is not a column. -/
def getColumn (t : Table) (name : String) : Option (List String) :=
  (t.header.findIdx? (fun c => c = name)).map
    (fun i => t.cells.map (fun row => row.getD i ""))

/-- Per-cell value under pandas `read_csv` column dtype inference: a column
is numeric when it is nonempty and every non-blank cell parses as a number;
then blanks read as NaN (`none`) and numerals as floats, otherwise cells stay
strings (blanks still NaN). -/
def cellVal (numeric : Bool) (s : String) : PyVal :=
  if s = "" then .none
  else if numeric then
    match parseFloat s with
    | some q => .float q
    | Option.none => .str s
  else .str s

def inferColumn (cells : List String) : List PyVal :=
  let numeric := !cells.isEmpty && cells.all (fun s => s = "" || (parseFloat s).isSome)
  cells.map (cellVal numeric)

/-- The English→Chinese legacy header mapping of `read_local`. -/
def mapperPairs : List (String × String) :=
  [("Rank", "排名"), ("MovieName", "电影名称"), ("ReleaseDate", "上映时间"),
   ("TotalBoxOffice(10k RMB)", "总票房(万元)"), ("AvgTicketPrice(RMB)", "平均票价(元)"),
   ("AvgAudienceCount", "平均场次观众数")]

def aliasOf (cn : String) : Option String :=
  (mapperPairs.find? (fun p => p.2 = cn)).map Prod.fst

/-- The cells that end up under canonical column `cn` after the loop
`if en in df.columns and cn not in df.columns: df[cn] = df[en]`. -/
def resolveColumn (t : Table) (cn : String) : Option (List String) :=
  if t.header.contains cn then getColumn t cn
  else
    match aliasOf cn with
    | some en => if t.header.contains en then getColumn t en else Option.none
    | Option.none => Option.none

def expectedCols : List String :=
  ["排名", "电影名称", "上映时间", "总票房(万元)", "平均票价(元)", "平均场次观众数"]

def legacyHeader : List String :=
  ["Rank", "MovieName", "ReleaseDate", "TotalBoxOffice(10k RMB)",
   "AvgTicketPrice(RMB)", "AvgAudienceCount"]

def needCol (o : Option (List String)) (cn : String) : Except PyErr (List PyVal) :=
  match o with
  | some cells => .ok (inferColumn cells)
  | Option.none => .error (.keyErr cn)

/-- `read_local`: reads the CSV, maps legacy headers, selects the six
canonical columns (raising `KeyError` when one is underivable). -/
def read_local (t : Table) : Except PyErr (List Row) :=
  match needCol (resolveColumn t "排名") "排名",
      needCol (resolveColumn t "电影名称") "电影名称",
      needCol (resolveColumn t "上映时间") "上映时间",
      needCol (resolveColumn t "总票房(万元)") "总票房(万元)",
      needCol (resolveColumn t "平均票价(元)") "平均票价(元)",
      needCol (resolveColumn t "平均场次观众数") "平均场次观众数" with
  | .ok c1, .ok c2, .ok c3, .ok c4, .ok c5, .ok c6 =>
      .ok ((List.range t.cells.length).map (fun i =>
        { rank := c1.getD i .none
          name := c2.getD i .none
          release_time := c3.getD i .none
          box_office := c4.getD i .none
          avg_price := c5.getD i .none
          avg_audience := c6.getD i .none }))
  | .error e, _, _, _, _, _ => .error e
  | _, .error e, _, _, _, _ => .error e
  | _, _, .error e, _, _, _ => .error e
  | _, _, _, .error e, _, _ => .error e
  | _, _, _, _, .error e, _ => .error e
  | _, _, _, _, _, .error e => .error e

/-! ### Normalization (`preprocess`) -/

/-- A calendar date as parsed from `上映时间`. -/
structure MDate where
  y : Int
  m : Nat
  d : Nat
  deriving DecidableEq, Repr

/-- Chronological code of a date (months and days are bounded by the parse,
so the lexicographic date order agrees with this numeric code). -/
def dateCode (d : MDate) : Int :=
  d.y * 10000 + (d.m : Int) * 100 + (d.d : Int)

def splitChar (c : Char) : List Char → List (List Char)
  | [] => [[]]
  | ch :: rest =>
      let r := splitChar c rest
      if ch = c then [] :: r
      else
        match r with
        | h :: tl => (ch :: h) :: tl
        | [] => [[ch]]

/-- Best-effort date parse (model of `pd.to_datetime` on the formats the
source emits): `YYYY-MM-DD` or `YYYY/MM/DD`, `none` otherwise. -/
def parseDate (s : String) : Option MDate :=
  let cs := s.toList
  let parts := if cs.contains '-' then splitChar '-' cs else splitChar '/' cs
  match parts with
  | [ys, ms, ds] =>
      if !ys.isEmpty && ys.all Char.isDigit && !ms.isEmpty && ms.all Char.isDigit
          && !ds.isEmpty && ds.all Char.isDigit then
        let m := digitsVal ms
        let d := digitsVal ds
        if 1 ≤ m ∧ m ≤ 12 ∧ 1 ≤ d ∧ d ≤ 31 then
          some ⟨(digitsVal ys : Int), m, d⟩
        else Option.none
      else Option.none
  | _ => Option.none

/-- `_parse_date` applied to a cell: non-string cells (NaN in particular)
give `NaT`. -/
def parseDateCell : PyVal → Option MDate
  | .str s => parseDate s
  | _ => Option.none

/-- A record after `preprocess`: the six ingested columns plus the derived
`上映日期解析` and `年份` columns. -/
structure MovieRecord where
  rank : PyVal
  name : PyVal
  release_time : PyVal
  box_office : PyVal
  avg_price : PyVal
  avg_audience : PyVal
  release_date : Option MDate
  year : Option Int
  deriving Repr

/-- Date parsing and year derivation for one row
(`df["上映日期解析"] = ...; df["年份"] = ....dt.year`). -/
def deriveRecord (r : Row) : MovieRecord :=
  let rd := parseDateCell r.release_time
  { rank := r.rank, name := r.name, release_time := r.release_time
    box_office := r.box_office, avg_price := r.avg_price
    avg_audience := r.avg_audience
    release_date := rd, year := rd.map (fun d => d.y) }

/-- Numeric view of a cell (booleans and ints read as numbers, anything else
is NA for sorting/summing purposes). -/
def pyNum : PyVal → Option ℚ
  | .int n => some (n : ℚ)
  | .float q => some q
  | .bool b => some (if b then 1 else 0)
  | _ => Option.none

/-- First sort key: the parsed date, with `NaT` last (`na_position='last'`). -/
def dKey (r : MovieRecord) : WithTop Int :=
  match r.release_date with
  | some d => (dateCode d : WithTop Int)
  | Option.none => ⊤

/-- Second sort key: the rank value, NA last. -/
def rKey (r : MovieRecord) : WithTop ℚ :=
  match pyNum r.rank with
  | some q => (q : WithTop ℚ)
  | Option.none => ⊤

def sortKeyPair (r : MovieRecord) : WithTop Int × WithTop ℚ :=
  (dKey r, rKey r)

/-- The lexicographic order used by
`df.sort_values(["上映日期解析", "排名"])`. -/
def keyLe (a b : MovieRecord) : Prop :=
  dKey a < dKey b ∨ (dKey a = dKey b ∧ rKey a ≤ rKey b)

instance keyLeDec : DecidableRel keyLe := fun a b => by
  unfold keyLe; infer_instance

instance keyLeTotal : IsTotal MovieRecord keyLe := ⟨by
  intro a b
  rcases lt_trichotomy (dKey a) (dKey b) with h | h | h
  · exact Or.inl (Or.inl h)
  · rcases le_total (rKey a) (rKey b) with hr | hr
    · exact Or.inl (Or.inr ⟨h, hr⟩)
    · exact Or.inr (Or.inr ⟨h.symm, hr⟩)
  · exact Or.inr (Or.inl h)⟩

instance keyLeTrans : IsTrans MovieRecord keyLe := ⟨by
  intro a b c hab hbc
  rcases hab with h1 | ⟨h1, r1⟩ <;> rcases hbc with h2 | ⟨h2, r2⟩
  · exact Or.inl (h1.trans h2)
  · exact Or.inl (lt_of_lt_of_le h1 (le_of_eq h2))
  · exact Or.inl (lt_of_le_of_lt (le_of_eq h1) h2)
  · exact Or.inr ⟨h1.trans h2, r1.trans r2⟩⟩

/-- `preprocess`: derive dates and years, then a stable sort by
`(release_date, rank)` ascending with NA last (pandas uses the stable
`np.lexsort` for multi-key sorts). -/
def preprocess (rows : List Row) : List MovieRecord :=
  List.insertionSort keyLe (rows.map deriveRecord)

/-! ### Yearly aggregate and exports (`export_all`) -/

/-- Add one observation to a grouped association list (key order is first
occurrence; sums accumulate). -/
def addYear (acc : List (Int × ℚ)) (y : Int) (q : ℚ) : List (Int × ℚ) :=
  match acc with
  | [] => [(y, q)]
  | (y0, s0) :: rest =>
      if y0 = y then (y0, s0 + q) :: rest else (y0, s0) :: addYear rest y q

/-- The box-office value a record contributes to a sum (NaN contributes 0,
i.e. pandas `skipna`). -/
def boxNum (r : MovieRecord) : ℚ :=
  (pyNum r.box_office).getD 0

/-- One grouping step: records with a null year are dropped
(`dropna(subset=["年份"])`), the others accumulate into their year's sum. -/
def gStep (acc : List (Int × ℚ)) (r : MovieRecord) : List (Int × ℚ) :=
  match r.year with
  | some y => addYear acc y (boxNum r)
  | Option.none => acc

/-- `df.dropna(subset=["年份"]).groupby("年份")["总票房(万元)"].sum()`
before key ordering. -/
def groupYears (recs : List MovieRecord) : List (Int × ℚ) :=
  recs.foldl gStep []

def yKeyLe (a b : Int × ℚ) : Prop := a.1 ≤ b.1

instance yKeyLeDec : DecidableRel yKeyLe := fun a b => by
  unfold yKeyLe; infer_instance

instance yKeyLeTotal : IsTotal (Int × ℚ) yKeyLe := ⟨fun a b => le_total a.1 b.1⟩

instance yKeyLeTrans : IsTrans (Int × ℚ) yKeyLe := ⟨fun _ _ _ h1 h2 => le_trans h1 h2⟩

/-- The yearly aggregate: grouped sums ordered by ascending year (groupby
sorts its keys; `sort_index` for the pie chart gives the same order). -/
def yearly (recs : List MovieRecord) : List (Int × ℚ) :=
  List.insertionSort yKeyLe (groupYears recs)

/-- One cell of the exported tables. -/
inductive Cell where
  | v (x : PyVal)
  | d (x : Option MDate)
  | y (x : Option Int)
  deriving Repr

/-- The header `df.to_csv` writes after `preprocess`: the six ingested
columns in construction order, then the two derived columns appended. -/
def csvHeader : List String :=
  ["排名", "电影名称", "上映时间", "总票房(万元)", "平均票价(元)", "平均场次观众数",
   "上映日期解析", "年份"]

def csvRow (r : MovieRecord) : List Cell :=
  [.v r.rank, .v r.name, .v r.release_time, .v r.box_office, .v r.avg_price,
   .v r.avg_audience, .d r.release_date, .y r.year]

/-- The row-text export: header plus one row per record, in dataset order,
cell values (names included) carried over unchanged. -/
def to_csv (recs : List MovieRecord) : List String × List (List Cell) :=
  (csvHeader, recs.map csvRow)

/-- `export_all`: the three file paths, the CSV content, and the XLSX second
sheet (the yearly aggregate). -/
def export_all (recs : List MovieRecord) (folder ts : String) :
    List String × (List String × List (List Cell)) × List (Int × ℚ) :=
  let base := folder ++ "/movie_income_" ++ ts
  ([base ++ ".csv", base ++ ".json", base ++ ".xlsx"], to_csv recs, yearly recs)

/-! ### Charts -/

/-- `pd.notna` on a cell. -/
def notna : PyVal → Bool
  | .none => false
  | _ => true

/-- Cells a numeric-dtype column may hold (pandas `nlargest` raises
`TypeError` on object-dtype, i.e. string-bearing, columns). -/
def notStr : PyVal → Bool
  | .str _ => false
  | .list _ => false
  | .dict _ => false
  | _ => true

def colNumeric (recs : List MovieRecord) (proj : MovieRecord → PyVal) : Bool :=
  recs.all (fun r => notStr (proj r))

/-- Descending comparison on a numeric column (NA rows are dropped before the
sort, matching `nlargest`). -/
def descBy (proj : MovieRecord → PyVal) (a b : MovieRecord) : Prop :=
  ((pyNum (proj b)).getD 0) ≤ ((pyNum (proj a)).getD 0)

instance descByDec (proj : MovieRecord → PyVal) : DecidableRel (descBy proj) :=
  fun a b => by unfold descBy; infer_instance

/-- `df.nlargest(n, col)`: `TypeError` on an object-dtype column, otherwise
the `n` rows with the largest values, ties broken by first occurrence
(`keep='first'`), NA rows never selected. -/
def nlargest (n : Nat) (recs : List MovieRecord) (proj : MovieRecord → PyVal) :
    Except PyErr (List MovieRecord) :=
  if colNumeric recs proj then
    .ok ((List.insertionSort (descBy proj)
      (recs.filter (fun r => (pyNum (proj r)).isSome))).take n)
  else .error (.typeErr "Column cannot be used with method nlargest")

/-- Scalar equality as `drop_duplicates(subset=["电影名称"])` compares names
(container values are unhashable in pandas and cannot reach this point with
equal hashes; modelled as never equal). -/
def sameName : PyVal → PyVal → Bool
  | .str a, .str b => a = b
  | .none, .none => true
  | .int a, .int b => a = b
  | .float a, .float b => a = b
  | .bool a, .bool b => a = b
  | _, _ => false

def dedupByName (l : List MovieRecord) : List MovieRecord :=
  l.foldl
    (fun acc r => if acc.any (fun x => sameName x.name r.name) then acc else acc ++ [r])
    []

/-- Line chart: plots all records in dataset order, labels every point whose
date and box office are both non-NA with the movie name; always saves. -/
def chart_line (recs : List MovieRecord) (folder ts : String) :
    Except PyErr (String × List (PyVal × Option MDate × PyVal)) :=
  let path := folder ++ "/movie_income_" ++ ts ++ "_上映日期 vs 票房.png"
  let labeled :=
    (recs.filter (fun r => r.release_date.isSome && notna r.box_office)).map
      (fun r => (r.name, r.release_date, r.box_office))
  .ok (path, labeled)

/-- Pie chart: one slice per non-null year of the aggregate, labels the years
as integer text; always saves (an empty aggregate draws no wedge). -/
def chart_pie (recs : List MovieRecord) (folder ts : String) :
    Except PyErr (String × List (String × ℚ)) :=
  let path := folder ++ "/movie_income_" ++ ts ++ "_年度票房占比.png"
  .ok (path, (yearly recs).map (fun p => (toString p.1, p.2)))

/-- Top-10 average-ticket-price bar chart. -/
def chart_bar_price (recs : List MovieRecord) (folder ts : String) :
    Except PyErr (String × List (PyVal × PyVal)) :=
  match nlargest 10 recs (fun r => r.avg_price) with
  | .error e => .error e
  | .ok top =>
      .ok (folder ++ "/movie_income_" ++ ts ++ "_top10平均票价.png",
        top.map (fun r => (r.name, r.avg_price)))

/-- Top-10 average-audience bar chart. -/
def chart_bar_audience (recs : List MovieRecord) (folder ts : String) :
    Except PyErr (String × List (PyVal × PyVal)) :=
  match nlargest 10 recs (fun r => r.avg_audience) with
  | .error e => .error e
  | .ok top =>
      .ok (folder ++ "/movie_income_" ++ ts ++ "_top10平均场次观众数.png",
        top.map (fun r => (r.name, r.avg_audience)))

/-- Price-vs-revenue scatter chart with the union of top-5 box-office and
top-5 price records, deduplicated by name, as labelled points. -/
def chart_scatter (recs : List MovieRecord) (folder ts : String) :
    Except PyErr (String × List PyVal) :=
  match nlargest 5 recs (fun r => r.box_office) with
  | .error e => .error e
  | .ok topBox =>
    match nlargest 5 recs (fun r => r.avg_price) with
    | .error e => .error e
    | .ok topPrice =>
        .ok (folder ++ "/movie_income_" ++ ts ++ "_票价 vs 票房.png",
          (dedupByName (topBox ++ topPrice)).map (fun r => r.name))

/-! ### `main` -/

/-- The run's input: a decoded remote response or a local snapshot. -/
inductive Source where
  | remote (resp : PyVal)
  | snapshot (t : Table)

/-- The observable outcome of a run: the file paths written, in order,
whether the run finished cleanly, and whether the top-level guard caught an
ingestion failure. -/
structure RunResult where
  wrote : List String
  finished : Bool
  aborted : Bool
  deriving Repr

/-- Run the chart calls in order; an uncaught exception stops the run, the
previously saved charts stay on disk. -/
def collectCharts : List (Except PyErr String) → List String × Bool
  | [] => ([], true)
  | .ok p :: rest =>
      let r := collectCharts rest
      (p :: r.1, r.2)
  | .error _ :: _ => ([], false)

/-- The unguarded part of `main` after successful ingestion: preprocessing,
export of the three data files, then the five charts in sequence. -/
def runPipeline (rows : List Row) (ts : String) : RunResult :=
  let df := preprocess rows
  let folder := "movie_income_" ++ ts
  let exported := (export_all df folder ts).1
  let charts :=
    [(chart_line df folder ts).map Prod.fst,
     (chart_pie df folder ts).map Prod.fst,
     (chart_bar_price df folder ts).map Prod.fst,
     (chart_bar_audience df folder ts).map Prod.fst,
     (chart_scatter df folder ts).map Prod.fst]
  let r := collectCharts charts
  { wrote := exported ++ r.1, finished := r.2, aborted := false }

/-- `main`: guarded ingestion followed by the pipeline.  Only ingestion
errors are caught (printing a message and returning with nothing written); a
chart failure leaves the already written files behind. -/
def runMain (src : Source) (ts : String) : RunResult :=
  match
    (match src with
     | .remote resp => fetch_online resp
     | .snapshot t => read_local t) with
  | .error _ => { wrote := [], finished := false, aborted := true }
  | .ok rows => runPipeline rows ts

/-! ### Helper notions used by the theorem statements -/

/-- Whether an `Except` computation succeeded (no exception raised). -/
def exceptOk : Except PyErr α → Bool
  | .ok _ => true
  | .error _ => false

/-- The number of records ingestion produced, `none` when it raised. -/
def rowsLen : Except PyErr (List Row) → Option Nat
  | .ok rows => some rows.length
  | .error _ => Option.none

/-- Whether a raw entry is a dict whose three numeric fields coerce. -/
def entryOk : PyVal → Bool
  | .dict kvs => exceptOk (to_row kvs)
  | _ => false

/-- The §3 canonical field order, modelled from the spec for comparison with
the code's `csvHeader`. -/
def specFieldOrder : List String :=
  ["排名", "电影名称", "上映时间", "上映日期解析", "年份", "总票房(万元)", "平均票价(元)",
   "平均场次观众数"]

/-- Sum of `box_office` over the records of a given (non-null) year. -/
def yearSum : List MovieRecord → Int → ℚ
  | [], _ => 0
  | r :: rest, y => (if r.year = some y then boxNum r else 0) + yearSum rest y

/-- Sum of the values stored under a key of a grouped association list. -/
def assocSum : List (Int × ℚ) → Int → ℚ
  | [], _ => 0
  | (y, s) :: rest, z => (if y = z then s else 0) + assocSum rest z

/-- The behaviour of one numeric field of `to_row` (used to state C1): the
mapped value is the float value of a numeric source, the parsed value of a
numeric string, `0.0` for a missing/falsy source, and a truthy unparseable
string makes `to_row` raise instead of defaulting. -/
def fieldSpec (item : List (String × PyVal)) (key : String) (get : Row → PyVal) : Prop :=
  (pyTruthy (dGetD item key (.int 0)) = false →
      ∀ row, to_row item = .ok row → get row = .float 0)
  ∧ (∀ q, dGetD item key (.int 0) = .float q →
      ∀ row, to_row item = .ok row → get row = .float q)
  ∧ (∀ n, dGetD item key (.int 0) = .int n →
      ∀ row, to_row item = .ok row → get row = .float (n : ℚ))
  ∧ (∀ s q, dGetD item key (.int 0) = .str s → parseFloat s = some q →
      ∀ row, to_row item = .ok row → get row = .float q)
  ∧ (∀ s, dGetD item key (.int 0) = .str s → s ≠ "" → parseFloat s = Option.none →
      exceptOk (to_row item) = false)

/-! ### Concrete inputs used by counterexamples and witnesses -/

/-- A row with every cell null. -/
def rowDefault : Row :=
  { rank := .none, name := .none, release_time := .none, box_office := .none,
    avg_price := .none, avg_audience := .none }

def itemW : List (String × PyVal) := [("BoxOffice", PyVal.float 5)]

def rowW : Row := (to_row itemW).toOption.getD rowDefault

/-- A well-formed remote entry. -/
def entryA : List (String × PyVal) :=
  [("Irank", .int 1), ("MovieName", .str "甲"), ("ReleaseTime", .str "2023-01-10"),
   ("BoxOffice", .float 1000), ("AvgBoxOffice", .float 45), ("AvgAudienceCount", .float 120)]

/-- A second well-formed remote entry, released earlier but ranked lower. -/
def entryB : List (String × PyVal) :=
  [("Irank", .int 2), ("MovieName", .str "乙"), ("ReleaseTime", .str "2022-12-25"),
   ("BoxOffice", .float 800), ("AvgBoxOffice", .float 50), ("AvgAudienceCount", .float 90)]

/-- A well-formed remote response with two entries. -/
def respGood : PyVal :=
  .dict [("data", .dict [("table0", .list [.dict entryA, .dict entryB])])]

/-- A remote response whose single entry has a non-numeric `BoxOffice`. -/
def respBad : PyVal :=
  .dict [("data", .dict [("table0", .list [.dict [("BoxOffice", PyVal.str "abc")]])])]

/-- A remote response whose single entry lacks `Irank`. -/
def respNoRank : PyVal :=
  .dict [("data", .dict [("table0", .list [.dict [("MovieName", PyVal.str "甲")]])])]

def fetchRowsNoRank : List Row := (fetch_online respNoRank).toOption.getD []

/-- A remote response with the single entry `entryA`. -/
def respSingle : PyVal :=
  .dict [("data", .dict [("table0", .list [.dict entryA])])]

def rowsSingle : List Row := (fetch_online respSingle).toOption.getD []

/-- A local snapshot whose `平均票价(元)` column holds a non-numeric value:
ingestion and export succeed, but the top-10 price bar chart raises. -/
def tBad : Table :=
  ⟨expectedCols, [["1", "甲", "2023-01-10", "1000", "abc", "120"]]⟩

/-- §8's sort example: a 2023 date at rank 1, a 2022 date at rank 2, an
unparseable date at rank 3. -/
def c3Rows : List Row :=
  [{ rank := .int 1, name := .str "A", release_time := .str "2023-01-10",
     box_office := .float 1000, avg_price := .float 45, avg_audience := .float 120 },
   { rank := .int 2, name := .str "B", release_time := .str "2022-12-25",
     box_office := .float 800, avg_price := .float 50, avg_audience := .float 90 },
   { rank := .int 3, name := .str "C", release_time := .str "未定",
     box_office := .float 0, avg_price := .float 0, avg_audience := .float 0 }]

/-- Two records with null dates, ranks 9 and 10. -/
def recNullX : MovieRecord :=
  deriveRecord
    { rank := .int 9, name := .str "X", release_time := .none,
      box_office := .none, avg_price := .none, avg_audience := .none }

def recNullY : MovieRecord :=
  deriveRecord
    { rank := .int 10, name := .str "Y", release_time := .none,
      box_office := .none, avg_price := .none, avg_audience := .none }

/-- §8's aggregation example: one 2022 record with 800, one 2023 with 1000. -/
def c6Recs : List MovieRecord :=
  [deriveRecord
     { rank := .int 2, name := .str "乙", release_time := .str "2022-12-25",
       box_office := .float 800, avg_price := .float 50, avg_audience := .float 90 },
   deriveRecord
     { rank := .int 1, name := .str "甲", release_time := .str "2023-01-10",
       box_office := .float 1000, avg_price := .float 45, avg_audience := .float 120 }]

def c7Rec : MovieRecord :=
  deriveRecord
    { rank := .int 1, name := .str "流浪地球", release_time := .str "2019-02-05",
      box_office := .float 1000, avg_price := .float 45, avg_audience := .float 120 }

/-- A local snapshot holding both the canonical `排名` column (value 1) and
its legacy alias `Rank` (value 99). -/
def c10T : Table :=
  ⟨["排名", "Rank", "电影名称", "上映时间", "总票房(万元)", "平均票价(元)", "平均场次观众数"],
   [["1", "99", "甲", "2023-01-10", "1000", "45", "120"]]⟩

def c10Rows : List Row := (read_local c10T).toOption.getD []

/-! ### Generic lemmas -/

theorem mapRows_ok_length {f : PyVal → Except PyErr Row} :
    ∀ {xs rows}, mapRows f xs = .ok rows → rows.length = xs.length := by
  intro xs
  induction xs with
  | nil => intro rows h; cases h; rfl
  | cons x xs ih =>
      intro rows h
      cases hx : f x with
      | error e => rw [mapRows, hx] at h; cases h
      | ok r =>
          rw [mapRows, hx] at h
          cases hrest : mapRows f xs with
          | error e => rw [hrest] at h; cases h
          | ok rs =>
              rw [hrest] at h
              cases h
              simp [ih hrest]

theorem mapRows_all_ok {f : PyVal → Except PyErr Row} :
    ∀ {xs}, (∀ x ∈ xs, exceptOk (f x) = true) →
      ∃ rows, mapRows f xs = .ok rows ∧ rows.length = xs.length := by
  intro xs
  induction xs with
  | nil => intro _; exact ⟨[], rfl, rfl⟩
  | cons x xs ih =>
      intro h
      have hx := h x (List.mem_cons_self x xs)
      cases hfx : f x with
      | error e => rw [hfx] at hx; simp [exceptOk] at hx
      | ok r =>
          obtain ⟨rows, hrows, hlen⟩ := ih (fun y hy => h y (List.mem_cons_of_mem x hy))
          exact ⟨r :: rows, by rw [mapRows, hfx, hrows], by simp [hlen]⟩

theorem collectCharts_finished :
    ∀ l, (collectCharts l).2 = true → (collectCharts l).1.length = l.length := by
  intro l
  induction l with
  | nil => intro _; rfl
  | cons c rest ih =>
      cases c with
      | ok p => intro h; simpa [collectCharts] using ih (by simpa [collectCharts] using h)
      | error e => intro h; simp [collectCharts] at h

theorem range_map_getD (l : List PyVal) :
    (List.range l.length).map (fun i => l.getD i .none) = l := by
  apply List.ext_getElem
  · simp
  · intro i h1 h2
    simp [List.getD_eq_getElem?_getD, List.getElem?_eq_getElem h2]


/-! ### Exception classification: nothing but the empty-frame check raises
`ValueError("API返回空数据集")` -/

theorem pyFloat_error_ne {v : PyVal} {e : PyErr} (h : pyFloat v = .error e) :
    e ≠ .valueEmpty := by
  cases v with
  | str s =>
      rw [pyFloat] at h
      split at h
      · cases h
      · cases h; simp
  | none => cases h; simp
  | bool b => cases h
  | int n => cases h
  | float q => cases h
  | list xs => cases h; simp
  | dict kvs => cases h; simp

theorem coerceNum_error_ne {item : List (String × PyVal)} {k : String} {e : PyErr}
    (h : coerceNum item k = .error e) : e ≠ .valueEmpty := by
  rw [coerceNum] at h
  exact pyFloat_error_ne h

theorem to_row_error_ne {item : List (String × PyVal)} {e : PyErr}
    (h : to_row item = .error e) : e ≠ .valueEmpty := by
  rw [to_row] at h
  split at h
  · cases h; exact coerceNum_error_ne (by assumption)
  · split at h
    · cases h; exact coerceNum_error_ne (by assumption)
    · split at h
      · cases h; exact coerceNum_error_ne (by assumption)
      · cases h

theorem entryRow_error_ne {x : PyVal} {e : PyErr} (h : entryRow x = .error e) :
    e ≠ .valueEmpty := by
  cases x with
  | dict kvs => exact to_row_error_ne h
  | none => cases h; simp
  | bool b => cases h; simp
  | int n => cases h; simp
  | float q => cases h; simp
  | str s => cases h; simp
  | list xs => cases h; simp

theorem mapRows_error_ne {f : PyVal → Except PyErr Row}
    (hf : ∀ x e, f x = .error e → e ≠ .valueEmpty) :
    ∀ {xs e}, mapRows f xs = .error e → e ≠ .valueEmpty := by
  intro xs
  induction xs with
  | nil => intro e h; cases h
  | cons x xs ih =>
      intro e h
      rw [mapRows] at h
      split at h
      · cases h; exact hf x _ (by assumption)
      · split at h
        · cases h; exact ih (by assumption)
        · cases h

theorem getAttr_error_ne {v : PyVal} {k : String} {dflt : PyVal} {e : PyErr}
    (h : getAttr v k dflt = .error e) : e ≠ .valueEmpty := by
  cases v <;> first
    | (cases h; simp)
    | (rw [getAttr] at h; cases h)

theorem extractTable_error_ne {resp : PyVal} {e : PyErr}
    (h : extractTable resp = .error e) : e ≠ .valueEmpty := by
  rw [extractTable] at h
  split at h
  · cases h; exact getAttr_error_ne (by assumption)
  · split at h
    · cases h; exact getAttr_error_ne (by assumption)
    · split at h
      · cases h
      · cases h; simp

/-! ### `coerceNum` and `to_row` facts -/

theorem parseFloat_empty : parseFloat "" = Option.none := rfl

theorem coerceNum_falsy {item : List (String × PyVal)} {k : String}
    (h : pyTruthy (dGetD item k (.int 0)) = false) : coerceNum item k = .ok 0 := by
  rw [coerceNum, h]
  simp [pyFloat]

theorem coerceNum_float {item : List (String × PyVal)} {k : String} {q : ℚ}
    (h : dGetD item k (.int 0) = .float q) : coerceNum item k = .ok q := by
  by_cases hq : q = 0
  · subst hq; simp [coerceNum, h, pyTruthy, pyFloat]
  · simp [coerceNum, h, pyTruthy, hq, pyFloat]

theorem coerceNum_int {item : List (String × PyVal)} {k : String} {n : Int}
    (h : dGetD item k (.int 0) = .int n) : coerceNum item k = .ok (n : ℚ) := by
  by_cases hn : n = 0
  · subst hn; simp [coerceNum, h, pyTruthy, pyFloat]
  · simp [coerceNum, h, pyTruthy, hn, pyFloat]

theorem coerceNum_str_some {item : List (String × PyVal)} {k : String} {s : String} {q : ℚ}
    (h : dGetD item k (.int 0) = .str s) (hp : parseFloat s = some q) :
    coerceNum item k = .ok q := by
  have hs : s ≠ "" := by
    intro h0
    subst h0
    rw [parseFloat_empty] at hp
    cases hp
  simp [coerceNum, h, pyTruthy, hs, pyFloat, hp]

theorem coerceNum_str_none {item : List (String × PyVal)} {k : String} {s : String}
    (h : dGetD item k (.int 0) = .str s) (hne : s ≠ "")
    (hp : parseFloat s = Option.none) :
    coerceNum item k = .error (.valueFloat "could not convert string to float") := by
  simp [coerceNum, h, pyTruthy, hne, pyFloat, hp]

theorem to_row_ok_elim {item : List (String × PyVal)} {row : Row}
    (h : to_row item = .ok row) :
    ∃ bo ap aa, coerceNum item "BoxOffice" = .ok bo ∧
      coerceNum item "AvgBoxOffice" = .ok ap ∧
      coerceNum item "AvgAudienceCount" = .ok aa ∧
      row = { rank := dGet item "Irank", name := dGet item "MovieName",
              release_time := dGet item "ReleaseTime", box_office := .float bo,
              avg_price := .float ap, avg_audience := .float aa } := by
  cases hbo : coerceNum item "BoxOffice" with
  | error e => simp only [to_row, hbo] at h; cases h
  | ok bo =>
    cases hap : coerceNum item "AvgBoxOffice" with
    | error e => simp only [to_row, hbo, hap] at h; cases h
    | ok ap =>
      cases haa : coerceNum item "AvgAudienceCount" with
      | error e => simp only [to_row, hbo, hap, haa] at h; cases h
      | ok aa =>
          simp only [to_row, hbo, hap, haa] at h
          cases h
          exact ⟨bo, ap, aa, rfl, rfl, rfl, rfl⟩

theorem to_row_ok_of_coerce {item : List (String × PyVal)}
    (h1 : exceptOk (coerceNum item "BoxOffice") = true)
    (h2 : exceptOk (coerceNum item "AvgBoxOffice") = true)
    (h3 : exceptOk (coerceNum item "AvgAudienceCount") = true) :
    exceptOk (to_row item) = true := by
  cases hbo : coerceNum item "BoxOffice" with
  | error e => rw [hbo] at h1; simp [exceptOk] at h1
  | ok bo =>
    cases hap : coerceNum item "AvgBoxOffice" with
    | error e => rw [hap] at h2; simp [exceptOk] at h2
    | ok ap =>
      cases haa : coerceNum item "AvgAudienceCount" with
      | error e => rw [haa] at h3; simp [exceptOk] at h3
      | ok aa => simp [to_row, hbo, hap, haa, exceptOk]

/-! ### Stability of the sort -/

theorem filter_orderedInsert {α : Type} (r : α → α → Prop) [DecidableRel r] (p : α → Bool)
    (hp : ∀ a b, p a = true → p b = true → r a b) (x : α) :
    ∀ l : List α, (List.orderedInsert r x l).filter p =
      if p x then x :: l.filter p else l.filter p := by
  intro l
  induction l with
  | nil => simp [List.orderedInsert, List.filter_cons]
  | cons b l ih =>
      by_cases hxb : r x b
      · simp [List.orderedInsert, hxb, List.filter_cons]
      · cases hpx : p x with
        | false =>
            simp only [List.orderedInsert, if_neg hxb, List.filter_cons, ih, hpx]
            simp
        | true =>
            have hpb : p b = false := by
              cases hpb2 : p b
              · rfl
              · exact absurd (hp x b hpx hpb2) hxb
            simp only [List.orderedInsert, if_neg hxb, List.filter_cons, ih, hpx, hpb]
            simp

theorem filter_insertionSort {α : Type} (r : α → α → Prop) [DecidableRel r] (p : α → Bool)
    (hp : ∀ a b, p a = true → p b = true → r a b) :
    ∀ l : List α, (List.insertionSort r l).filter p = l.filter p := by
  intro l
  induction l with
  | nil => rfl
  | cons a l ih =>
      simp only [List.insertionSort, filter_orderedInsert r p hp a _, ih, List.filter_cons]

/-- `dKey` is the top element exactly on a null parsed date. -/
theorem dKey_eq_top_iff {r : MovieRecord} : dKey r = ⊤ ↔ r.release_date = Option.none := by
  cases h : r.release_date with
  | none => simp [dKey, h]
  | some d =>
      simp only [dKey, h]
      constructor
      · intro hc; exact absurd hc (WithTop.coe_ne_top)
      · intro hc; cases hc

/-! ### Grouping lemmas for the yearly aggregate -/

theorem addYear_assocSum (y : Int) (q : ℚ) (z : Int) :
    ∀ acc, assocSum (addYear acc y q) z = assocSum acc z + (if y = z then q else 0) := by
  intro acc
  induction acc with
  | nil => simp [addYear, assocSum]
  | cons hd rest ih =>
      obtain ⟨y0, s0⟩ := hd
      rw [addYear]
      by_cases h0 : y0 = y
      · subst h0
        by_cases hz : y0 = z <;> simp [assocSum, hz] <;> ring
      · rw [if_neg h0]
        by_cases hz : y0 = z <;> simp [assocSum, hz, ih] <;> ring

theorem gfold_assocSum :
    ∀ (recs : List MovieRecord) (acc : List (Int × ℚ)) (z : Int),
      assocSum (recs.foldl gStep acc) z = assocSum acc z + yearSum recs z := by
  intro recs
  induction recs with
  | nil => intro acc z; simp [yearSum]
  | cons r rest ih =>
      intro acc z
      rw [List.foldl_cons, ih, yearSum]
      cases hy : r.year with
      | none => simp [gStep, hy]
      | some y =>
          simp only [gStep, hy, addYear_assocSum]
          by_cases hz : y = z
          · subst hz; simp; ring
          · simp [hz, fun hc => hz (Option.some.inj hc)]

theorem mem_keys_addYear {y z : Int} {q : ℚ} :
    ∀ {acc}, z ∈ (addYear acc y q).map Prod.fst ↔ z ∈ acc.map Prod.fst ∨ z = y := by
  intro acc
  induction acc with
  | nil => simp [addYear]
  | cons hd rest ih =>
      obtain ⟨y0, s0⟩ := hd
      by_cases h0 : y0 = y
      · subst h0
        rw [addYear, if_pos rfl]
        simp only [List.map_cons, List.mem_cons]
        tauto
      · rw [addYear, if_neg h0]
        simp only [List.map_cons, List.mem_cons, ih]
        tauto

theorem mem_keys_gfold :
    ∀ (recs : List MovieRecord) (acc : List (Int × ℚ)) (z : Int),
      z ∈ ((recs.foldl gStep acc).map Prod.fst) ↔
        z ∈ acc.map Prod.fst ∨ ∃ r ∈ recs, r.year = some z := by
  intro recs
  induction recs with
  | nil => intro acc z; simp
  | cons r rest ih =>
      intro acc z
      rw [List.foldl_cons, ih]
      cases hy : r.year with
      | none => simp [gStep, hy]
      | some y =>
          simp only [gStep, hy, mem_keys_addYear, List.mem_cons]
          constructor
          · rintro (⟨h | h⟩ | h)
            · exact Or.inl h
            · exact Or.inr ⟨r, Or.inl rfl, by rw [hy, h]⟩
            · obtain ⟨x, hx, hxy⟩ := h
              exact Or.inr ⟨x, Or.inr hx, hxy⟩
          · rintro (h | ⟨x, hx | hx, hxy⟩)
            · exact Or.inl (Or.inl h)
            · subst hx
              rw [hy] at hxy
              exact Or.inl (Or.inr (Option.some.inj hxy).symm)
            · exact Or.inr ⟨x, hx, hxy⟩

theorem nodup_keys_addYear {y : Int} {q : ℚ} :
    ∀ {acc}, ((acc.map Prod.fst).Nodup) → ((addYear acc y q).map Prod.fst).Nodup := by
  intro acc
  induction acc with
  | nil => intro _; simp [addYear]
  | cons hd rest ih =>
      intro h
      obtain ⟨y0, s0⟩ := hd
      simp only [List.map_cons, List.nodup_cons] at h
      obtain ⟨hnm, hnd⟩ := h
      rw [addYear]
      by_cases h0 : y0 = y
      · rw [if_pos h0]
        simp only [List.map_cons, List.nodup_cons]
        exact ⟨hnm, hnd⟩
      · rw [if_neg h0]
        simp only [List.map_cons, List.nodup_cons, mem_keys_addYear]
        exact ⟨fun hc => hc.elim hnm h0, ih hnd⟩

theorem nodup_keys_gfold :
    ∀ (recs : List MovieRecord) (acc : List (Int × ℚ)),
      (acc.map Prod.fst).Nodup → ((recs.foldl gStep acc).map Prod.fst).Nodup := by
  intro recs
  induction recs with
  | nil => intro acc h; exact h
  | cons r rest ih =>
      intro acc h
      rw [List.foldl_cons]
      cases hy : r.year with
      | none => rw [gStep, hy]; exact ih acc h
      | some y =>
          refine ih _ ?_
          rw [gStep, hy]
          exact nodup_keys_addYear h

theorem assocSum_of_not_mem {z : Int} :
    ∀ {l : List (Int × ℚ)}, z ∉ l.map Prod.fst → assocSum l z = 0 := by
  intro l
  induction l with
  | nil => intro _; rfl
  | cons hd rest ih =>
      intro h
      obtain ⟨y0, s0⟩ := hd
      simp only [List.map_cons, List.mem_cons] at h
      push_neg at h
      rw [assocSum, if_neg (fun hc => h.1 hc.symm), ih h.2, add_zero]

theorem assocSum_of_mem {p : Int × ℚ} :
    ∀ {l : List (Int × ℚ)}, (l.map Prod.fst).Nodup → p ∈ l → assocSum l p.1 = p.2 := by
  intro l
  induction l with
  | nil => intro _ hm; cases hm
  | cons hd rest ih =>
      intro hn hm
      simp only [List.map_cons, List.nodup_cons] at hn
      obtain ⟨hnm, hnd⟩ := hn
      rcases List.mem_cons.mp hm with h | h
      · subst h
        rw [assocSum, if_pos rfl, assocSum_of_not_mem hnm, add_zero]
      · have hne : hd.1 ≠ p.1 := by
          intro hc
          exact hnm (hc ▸ List.mem_map_of_mem Prod.fst h)
        obtain ⟨y0, s0⟩ := hd
        rw [assocSum, if_neg hne, ih hnd h, zero_add]

/-! ### Yearly aggregate facts -/

theorem yearly_perm (recs : List MovieRecord) :
    (yearly recs).Perm (groupYears recs) :=
  List.perm_insertionSort yKeyLe (groupYears recs)

theorem yearly_keys (recs : List MovieRecord) (z : Int) :
    z ∈ (yearly recs).map Prod.fst ↔ ∃ r ∈ recs, r.year = some z := by
  rw [((yearly_perm recs).map Prod.fst).mem_iff]
  have h := mem_keys_gfold recs [] z
  rw [groupYears]
  simpa using h

theorem yearly_nodup_keys (recs : List MovieRecord) :
    ((yearly recs).map Prod.fst).Nodup := by
  have h : ((groupYears recs).map Prod.fst).Nodup := by
    rw [groupYears]
    exact nodup_keys_gfold recs [] (by simp)
  exact ((yearly_perm recs).map Prod.fst).nodup_iff.mpr h

theorem yearly_sorted (recs : List MovieRecord) :
    List.Sorted yKeyLe (yearly recs) :=
  List.sorted_insertionSort yKeyLe (groupYears recs)

theorem yearly_val {recs : List MovieRecord} {y : Int} {s : ℚ}
    (h : (y, s) ∈ yearly recs) : s = yearSum recs y := by
  have hg : (y, s) ∈ groupYears recs := (yearly_perm recs).mem_iff.mp h
  have hn : ((groupYears recs).map Prod.fst).Nodup := by
    rw [groupYears]
    exact nodup_keys_gfold recs [] (by simp)
  have hv := assocSum_of_mem hn hg
  have hs := gfold_assocSum recs [] y
  rw [groupYears] at hv
  rw [hv] at hs
  simpa [assocSum] using hs

/-! ### Field-wise behaviour of `to_row` -/

theorem to_row_not_ok {item : List (String × PyVal)} {k : String} {e : PyErr}
    (hk : k = "BoxOffice" ∨ k = "AvgBoxOffice" ∨ k = "AvgAudienceCount")
    (h : coerceNum item k = .error e) : exceptOk (to_row item) = false := by
  cases hok : to_row item with
  | error e2 => rfl
  | ok row =>
      obtain ⟨bo, ap, aa, h1, h2, h3, _⟩ := to_row_ok_elim hok
      exfalso
      rcases hk with hk | hk | hk
      · subst hk; rw [h] at h1; cases h1
      · subst hk; rw [h] at h2; cases h2
      · subst hk; rw [h] at h3; cases h3

theorem to_row_box_val {item : List (String × PyVal)} :
    ∀ row v, to_row item = .ok row → coerceNum item "BoxOffice" = .ok v →
      row.box_office = .float v := by
  intro row v hrow hv
  obtain ⟨bo, ap, aa, h1, _, _, hrw⟩ := to_row_ok_elim hrow
  have hbv : bo = v := Except.ok.inj (h1.symm.trans hv)
  rw [hrw, ← hbv]

theorem to_row_price_val {item : List (String × PyVal)} :
    ∀ row v, to_row item = .ok row → coerceNum item "AvgBoxOffice" = .ok v →
      row.avg_price = .float v := by
  intro row v hrow hv
  obtain ⟨bo, ap, aa, _, h2, _, hrw⟩ := to_row_ok_elim hrow
  have hbv : ap = v := Except.ok.inj (h2.symm.trans hv)
  rw [hrw, ← hbv]

theorem to_row_audience_val {item : List (String × PyVal)} :
    ∀ row v, to_row item = .ok row → coerceNum item "AvgAudienceCount" = .ok v →
      row.avg_audience = .float v := by
  intro row v hrow hv
  obtain ⟨bo, ap, aa, _, _, h3, hrw⟩ := to_row_ok_elim hrow
  have hbv : aa = v := Except.ok.inj (h3.symm.trans hv)
  rw [hrw, ← hbv]

theorem fieldSpec_of (item : List (String × PyVal)) (key : String) (get : Row → PyVal)
    (hlink : ∀ row v, to_row item = .ok row → coerceNum item key = .ok v →
      get row = .float v)
    (herr : ∀ e, coerceNum item key = .error e → exceptOk (to_row item) = false) :
    fieldSpec item key get := by
  refine ⟨?_, ?_, ?_, ?_, ?_⟩
  · intro hf row hrow
    exact hlink row 0 hrow (coerceNum_falsy hf)
  · intro q hq row hrow
    exact hlink row q hrow (coerceNum_float hq)
  · intro n hn row hrow
    exact hlink row (n : ℚ) hrow (coerceNum_int hn)
  · intro s q hs hq row hrow
    exact hlink row q hrow (coerceNum_str_some hs hq)
  · intro s hs hne hq
    exact herr _ (coerceNum_str_none hs hne hq)

/-- C1 (amended): each of the three numeric fields of `to_row` equals the
float value of its source when the source is a number or a numeric string,
and equals `0.0` when the source is missing, null, or otherwise falsy; but a
truthy source that does not coerce to float (e.g. a non-numeric string) makes
`to_row` raise instead of defaulting; `to_row` succeeds whenever all three
fields coerce. -/
theorem C1_numeric_field_mapping (item : List (String × PyVal)) :
    fieldSpec item "BoxOffice" (fun r => r.box_office)
    ∧ fieldSpec item "AvgBoxOffice" (fun r => r.avg_price)
    ∧ fieldSpec item "AvgAudienceCount" (fun r => r.avg_audience)
    ∧ ((exceptOk (coerceNum item "BoxOffice") && exceptOk (coerceNum item "AvgBoxOffice")
          && exceptOk (coerceNum item "AvgAudienceCount")) = true →
        exceptOk (to_row item) = true) := by
  refine ⟨?_, ?_, ?_, ?_⟩
  · exact fieldSpec_of item _ _ to_row_box_val (fun e he => to_row_not_ok (Or.inl rfl) he)
  · exact fieldSpec_of item _ _ to_row_price_val
      (fun e he => to_row_not_ok (Or.inr (Or.inl rfl)) he)
  · exact fieldSpec_of item _ _ to_row_audience_val
      (fun e he => to_row_not_ok (Or.inr (Or.inr rfl)) he)
  · intro h
    rw [Bool.and_eq_true, Bool.and_eq_true] at h
    exact to_row_ok_of_coerce h.1.1 h.1.2 h.2

/-- C1 counterexample: an entry whose `BoxOffice` is the truthy non-numeric
string `"abc"` makes the mapping raise a float-conversion `ValueError`, where
the claim demands a silent `0.0` default and no error. -/
theorem C1_counterexample :
    to_row [("BoxOffice", PyVal.str "abc")] =
      .error (.valueFloat "could not convert string to float") := rfl

/-- C1 witness: on a concrete entry with `BoxOffice = 5.0` and the other two
fields absent, the mapped row carries `5.0` and the defaulted `0.0`. -/
theorem C1_witness :
    rowW.box_office = PyVal.float 5 ∧ rowW.avg_price = PyVal.float 0 := by
  constructor
  · exact (C1_numeric_field_mapping itemW).1.2.1 5 rfl rowW rfl
  · exact (C1_numeric_field_mapping itemW).2.1.1 rfl rowW rfl

/-! ### Ingestion on the remote path -/

theorem entryOk_eq (x : PyVal) : entryOk x = exceptOk (entryRow x) := by
  cases x <;> rfl

theorem fetch_ok_elim {resp : PyVal} {rows : List Row}
    (h : fetch_online resp = .ok rows) :
    ∃ xs, extractTable resp = .ok xs ∧ mapRows entryRow xs = .ok rows := by
  cases hx : extractTable resp with
  | error e => simp only [fetch_online, hx] at h; cases h
  | ok xs =>
      cases hm : mapRows entryRow xs with
      | error e => simp only [fetch_online, hx, hm] at h; cases h
      | ok rows2 =>
          simp only [fetch_online, hx, hm] at h
          cases hre : rows2 with
          | nil => rw [hre] at h; simp at h
          | cons r rs =>
              rw [hre] at h
              simp only [List.isEmpty_cons, Bool.false_eq_true, if_false] at h
              cases h
              exact ⟨xs, rfl, hre ▸ hm⟩

/-- C4 (amended): the `EmptyDatasetError` (`ValueError("API返回空数据集")`) is
raised exactly when extraction of `data.table0` succeeds with an empty list
(a missing, null or falsy `table0` extracts as `[]`; a null/non-dict `data`
member instead fails extraction with an `AttributeError`-style error); a
nonempty extracted list of dict entries whose numeric fields all coerce
yields exactly one record per entry — an entry with a truthy non-numeric
field aborts ingestion with a float-conversion error instead; and when the
empty-dataset error is raised, the run writes no files. -/
theorem C4_empty_dataset (resp : PyVal) (ts : String) :
    (fetch_online resp = .error .valueEmpty ↔ extractTable resp = .ok [])
    ∧ (∀ xs, extractTable resp = .ok xs → xs ≠ [] → (∀ x ∈ xs, entryOk x = true) →
        rowsLen (fetch_online resp) = some xs.length)
    ∧ (fetch_online resp = .error .valueEmpty →
        runMain (.remote resp) ts = ⟨[], false, true⟩) := by
  refine ⟨?_, ?_, ?_⟩
  · cases hx : extractTable resp with
    | error e =>
        have hne := extractTable_error_ne hx
        constructor
        · intro h
          simp only [fetch_online, hx] at h
          cases h
          exact absurd rfl hne
        · intro h
          cases h
    | ok xs =>
        cases xs with
        | nil =>
            constructor
            · intro _
              rfl
            · intro _
              simp [fetch_online, hx, mapRows]
        | cons a as =>
            constructor
            · intro h
              exfalso
              cases hm : mapRows entryRow (a :: as) with
              | error e =>
                  have hne := mapRows_error_ne (fun x e2 he => entryRow_error_ne he) hm
                  simp only [fetch_online, hx, hm] at h
                  cases h
                  exact absurd rfl hne
              | ok rows =>
                  have hlen := mapRows_ok_length hm
                  simp only [fetch_online, hx, hm] at h
                  cases hre : rows with
                  | nil => rw [hre] at hlen; simp at hlen
                  | cons r rs => rw [hre] at h; simp at h
            · intro h
              simp at h
  · intro xs hxs hne hall
    obtain ⟨rows, hrows, hlen⟩ :=
      mapRows_all_ok (f := entryRow) (fun x hx2 => (entryOk_eq x) ▸ hall x hx2)
    have hne2 : rows ≠ [] := by
      intro h0
      subst h0
      exact hne (List.eq_nil_of_length_eq_zero hlen.symm)
    cases hre : rows with
    | nil => exact absurd hre hne2
    | cons r rs =>
        rw [hre] at hrows hlen
        simp only [fetch_online, hxs, hrows, List.isEmpty_cons, Bool.false_eq_true, if_false,
          rowsLen]
        rw [hlen]
  · intro h
    simp [runMain, h]

/-- C4 counterexample: a response whose `table0` holds one entry (so N = 1 ≥
1) for which ingestion nevertheless fails — with a float-conversion error,
not with success and one record as the claim asserts. -/
theorem C4_counterexample :
    extractTable respBad = .ok [PyVal.dict [("BoxOffice", PyVal.str "abc")]]
    ∧ fetch_online respBad = .error (.valueFloat "could not convert string to float") :=
  ⟨rfl, rfl⟩

/-- C4 witness: the two-entry response ingests to exactly two records. -/
theorem C4_witness : rowsLen (fetch_online respGood) = some 2 :=
  (C4_empty_dataset respGood "T").2.1 [.dict entryA, .dict entryB] rfl
    (by simp) (by decide)

/-! ### Output atomicity of `main` -/

theorem runPipeline_aborted (rows : List Row) (ts : String) :
    (runPipeline rows ts).aborted = false := rfl

theorem runPipeline_finished (rows : List Row) (ts : String) :
    (runPipeline rows ts).finished = true → (runPipeline rows ts).wrote.length = 8 := by
  intro h
  simp only [runPipeline] at h ⊢
  rw [List.length_append, collectCharts_finished _ h]
  rfl

/-- C2 (amended): the all-or-nothing guarantee holds only for ingestion-time
failures — an ingestion error is caught and the run writes nothing; a run
that finishes without an uncaught exception writes all eight artifacts; but a
chart failure after the export step (possible, e.g., from a local snapshot
whose price column is non-numeric) leaves the three data files and the
already-rendered charts on disk. -/
theorem C2_all_or_nothing (src : Source) (ts : String) :
    ((runMain src ts).aborted = true → (runMain src ts).wrote = [])
    ∧ ((runMain src ts).finished = true → (runMain src ts).wrote.length = 8) := by
  rcases src with resp | t
  · cases h : fetch_online resp with
    | error e =>
        refine ⟨fun _ => by simp [runMain, h], fun hf => ?_⟩
        simp [runMain, h] at hf
    | ok rows =>
        have hrm : runMain (.remote resp) ts = runPipeline rows ts := by
          simp [runMain, h]
        refine ⟨fun ha => ?_, fun hf => ?_⟩
        · rw [hrm, runPipeline_aborted] at ha
          cases ha
        · rw [hrm] at hf ⊢
          exact runPipeline_finished rows ts hf
  · cases h : read_local t with
    | error e =>
        refine ⟨fun _ => by simp [runMain, h], fun hf => ?_⟩
        simp [runMain, h] at hf
    | ok rows =>
        have hrm : runMain (.snapshot t) ts = runPipeline rows ts := by
          simp [runMain, h]
        refine ⟨fun ha => ?_, fun hf => ?_⟩
        · rw [hrm, runPipeline_aborted] at ha
          cases ha
        · rw [hrm] at hf ⊢
          exact runPipeline_finished rows ts hf

/-- C2 counterexample: the snapshot `tBad` ingests fine, the three data files
and the first two charts are written, then the top-10 price bar chart raises
on the object-dtype column — the run ends with five of the eight artifacts on
disk, neither none nor all. -/
theorem C2_counterexample :
    (runMain (.snapshot tBad) "T").wrote.length = 5
    ∧ ¬((runMain (.snapshot tBad) "T").wrote.length = 0
        ∨ (runMain (.snapshot tBad) "T").wrote.length = 8) := by
  constructor
  · rfl
  · decide

/-- C2 witness: a clean remote run writes all eight artifacts. -/
theorem C2_witness : (runMain (.remote respGood) "T").wrote.length = 8 :=
  (C2_all_or_nothing (.remote respGood) "T").2 (by decide)

/-- C3: `preprocess` sorts by `(release_date, rank)` ascending — the result
is sorted under the lexicographic key order `keyLe` (whose keys place null
dates and NA ranks last), it is a permutation of the date-derived records in
their original order, the sort is stable (records with equal sort keys keep
their relative pre-sort order: filtering any key class commutes with the
sort), and the key order puts every null-date record after all dated ones. -/
theorem C3_preprocess_sort (rows : List Row) :
    List.Sorted keyLe (preprocess rows)
    ∧ (preprocess rows).Perm (rows.map deriveRecord)
    ∧ (∀ k : WithTop Int × WithTop ℚ,
        (preprocess rows).filter (fun r => decide (sortKeyPair r = k))
          = (rows.map deriveRecord).filter (fun r => decide (sortKeyPair r = k)))
    ∧ (∀ a b : MovieRecord, keyLe a b → a.release_date = Option.none →
        b.release_date = Option.none) := by
  refine ⟨List.sorted_insertionSort keyLe _, List.perm_insertionSort keyLe _, ?_, ?_⟩
  · intro k
    apply filter_insertionSort keyLe _ ?_
    intro a b hpa hpb
    have ha := of_decide_eq_true hpa
    have hb := of_decide_eq_true hpb
    have h1 : dKey a = dKey b := by
      have := congrArg Prod.fst (ha.trans hb.symm)
      simpa [sortKeyPair] using this
    have h2 : rKey a = rKey b := by
      have := congrArg Prod.snd (ha.trans hb.symm)
      simpa [sortKeyPair] using this
    exact Or.inr ⟨h1, le_of_eq h2⟩
  · intro a b hab ha
    have hda : dKey a = ⊤ := dKey_eq_top_iff.mpr ha
    rcases hab with h | ⟨h, _⟩
    · rw [hda] at h
      exact absurd h not_top_lt
    · rw [hda] at h
      exact dKey_eq_top_iff.mp h.symm

/-- C3 witness: the §8 example dataset is sorted by the key order, and for
two concrete null-date records related by the key order the later one indeed
has a null date. -/
theorem C3_witness :
    List.Sorted keyLe (preprocess c3Rows)
    ∧ recNullY.release_date = Option.none := by
  refine ⟨(C3_preprocess_sort c3Rows).1, ?_⟩
  exact (C3_preprocess_sort c3Rows).2.2.2 recNullX recNullY (by decide) rfl

/-- C5 (amended): no renderer checks for an empty dataset and no
`EmptyChartInputError` exists in the code — on an empty dataset the line and
pie renderers return normally, saving a blank artifact at their usual path
(with no labelled point and no wedge) instead of raising. -/
theorem C5_empty_render (folder ts : String) :
    chart_line [] folder ts
        = .ok (folder ++ "/movie_income_" ++ ts ++ "_上映日期 vs 票房.png", [])
    ∧ chart_pie [] folder ts
        = .ok (folder ++ "/movie_income_" ++ ts ++ "_年度票房占比.png", []) :=
  ⟨rfl, rfl⟩

/-- C5 counterexample: invoking the line renderer (and the pie renderer) on
the empty dataset succeeds — no `EmptyChartInputError` (nor any error) is
raised, contradicting the claim that every renderer raises one. -/
theorem C5_counterexample :
    exceptOk (chart_line ([] : List MovieRecord) "charts" "TS") = true
    ∧ exceptOk (chart_pie ([] : List MovieRecord) "charts" "TS") = true :=
  ⟨rfl, rfl⟩

/-- C6: the yearly aggregate's keys are exactly the non-null years occurring
in the dataset (null-year records feed no entry), the entries are in strictly
ascending year order, and each year maps to the sum of `box_office` over the
records of that year. -/
theorem C6_yearly_aggregate (recs : List MovieRecord) :
    (∀ y : Int, y ∈ (yearly recs).map Prod.fst ↔ ∃ r ∈ recs, r.year = some y)
    ∧ (yearly recs).Pairwise (fun a b => a.1 < b.1)
    ∧ (∀ y s, (y, s) ∈ yearly recs → s = yearSum recs y) := by
  refine ⟨yearly_keys recs, ?_, fun y s h => yearly_val h⟩
  have hs : (yearly recs).Pairwise yKeyLe := yearly_sorted recs
  have hn : (yearly recs).Pairwise (fun a b => a.1 ≠ b.1) := by
    have h := yearly_nodup_keys recs
    rw [List.Nodup, List.pairwise_map] at h
    exact h
  exact (hs.and hn).imp (fun h => lt_of_le_of_ne h.1 h.2)

/-- C6 witness: §8's example — one 2022 record with 800 and one 2023 record
with 1000 — aggregates 2022 to the year sum 800, in strictly ascending key
order. -/
theorem C6_witness :
    (800 : ℚ) = yearSum c6Recs 2022
    ∧ (yearly c6Recs).Pairwise (fun a b => a.1 < b.1) :=
  ⟨(C6_yearly_aggregate c6Recs).2.2 2022 800 (by decide),
   (C6_yearly_aggregate c6Recs).2.1⟩

/-- C7 (amended): the row-text export writes one row per record in dataset
order, with the columns in construction order — the six ingested columns
(rank, name, release_time_raw, box_office, avg_ticket_price,
avg_audience_per_showing) followed by the two derived columns (release_date,
year) appended at the end — not in the §3 canonical field order; the name
cell carries the name value unchanged (non-Latin text preserved). -/
theorem C7_row_export (recs : List MovieRecord) (folder ts : String) :
    ((export_all recs folder ts).2.1).1 = csvHeader
    ∧ ((export_all recs folder ts).2.1).2 = recs.map csvRow
    ∧ (∀ r ∈ recs, (csvRow r)[1]? = some (.v r.name)) := by
  refine ⟨rfl, rfl, ?_⟩
  intro r _
  rfl

/-- C7 counterexample: the header actually written differs from the §3
canonical field order the claim asserts (the derived columns come last, not
after `release_time_raw`). -/
theorem C7_counterexample : csvHeader ≠ specFieldOrder := by decide

/-- C7 witness: on a concrete record the name cell of the exported row is the
record's name value, unchanged. -/
theorem C7_witness : (csvRow c7Rec)[1]? = some (.v c7Rec.name) :=
  (C7_row_export [c7Rec] "f" "t").2.2 c7Rec (List.mem_cons_self c7Rec [])

/-- C8: a local snapshot whose header uses only the legacy English aliases
reads to a dataset identical, field for field, to the one read from a
snapshot with the same cells under the canonical header names. -/
theorem C8_legacy_equiv (cells : List (List String)) :
    read_local ⟨legacyHeader, cells⟩ = read_local ⟨expectedCols, cells⟩ := rfl

/-! ### Invariants of normalized datasets -/

theorem mapRows_mem {f : PyVal → Except PyErr Row} :
    ∀ {xs rows}, mapRows f xs = .ok rows → ∀ r ∈ rows, ∃ x ∈ xs, f x = .ok r := by
  intro xs
  induction xs with
  | nil =>
      intro rows h r hr
      cases h
      cases hr
  | cons x xs ih =>
      intro rows h r hr
      rw [mapRows] at h
      cases hx : f x with
      | error e => rw [hx] at h; cases h
      | ok r0 =>
          rw [hx] at h
          cases hrest : mapRows f xs with
          | error e => rw [hrest] at h; cases h
          | ok rs =>
              rw [hrest] at h
              cases h
              rcases List.mem_cons.mp hr with h0 | h0
              · exact ⟨x, List.mem_cons_self x xs, h0 ▸ hx⟩
              · obtain ⟨x2, hx2, hfx2⟩ := ih hrest r h0
                exact ⟨x2, List.mem_cons_of_mem x hx2, hfx2⟩

theorem entryRow_fields {x : PyVal} {r : Row} (h : entryRow x = .ok r) :
    (∃ q, r.box_office = .float q) ∧ (∃ q, r.avg_price = .float q)
      ∧ (∃ q, r.avg_audience = .float q) := by
  cases x with
  | dict kvs =>
      obtain ⟨bo, ap, aa, _, _, _, hrw⟩ := to_row_ok_elim h
      subst hrw
      exact ⟨⟨bo, rfl⟩, ⟨ap, rfl⟩, ⟨aa, rfl⟩⟩
  | none => cases h
  | bool b => cases h
  | int n => cases h
  | float q => cases h
  | str s => cases h
  | list xs => cases h

/-- C9 (amended): in every normalized dataset `release_date` and `year` are
null together or non-null together; and on the remote path the three numeric
fields of every normalized record are non-null numbers.  (`rank` and `name`
are only as non-null as the source supplies: a remote entry lacking `Irank`
or `MovieName` yields a record with a null rank or name — see the
counterexample.) -/
theorem C9_normalized_invariant :
    (∀ (rows : List Row) (rec : MovieRecord), rec ∈ preprocess rows →
        rec.release_date.isSome = rec.year.isSome)
    ∧ (∀ (resp : PyVal) (rows : List Row) (rec : MovieRecord),
        fetch_online resp = .ok rows → rec ∈ preprocess rows →
        (pyNum rec.box_office).isSome = true ∧ (pyNum rec.avg_price).isSome = true
          ∧ (pyNum rec.avg_audience).isSome = true) := by
  constructor
  · intro rows rec hm
    have hmem : rec ∈ rows.map deriveRecord :=
      (List.perm_insertionSort keyLe _).mem_iff.mp hm
    obtain ⟨r0, _, heq⟩ := List.mem_map.mp hmem
    subst heq
    cases hrd : parseDateCell r0.release_time <;>
      simp [deriveRecord, hrd]
  · intro resp rows rec hok hm
    obtain ⟨xs, _, hmap⟩ := fetch_ok_elim hok
    have hmem : rec ∈ rows.map deriveRecord :=
      (List.perm_insertionSort keyLe _).mem_iff.mp hm
    obtain ⟨r0, hr0, heq⟩ := List.mem_map.mp hmem
    obtain ⟨x, _, hfx⟩ := mapRows_mem hmap r0 hr0
    obtain ⟨⟨b, hb⟩, ⟨p, hp⟩, ⟨a2, ha2⟩⟩ := entryRow_fields hfx
    subst heq
    refine ⟨?_, ?_, ?_⟩ <;> simp [deriveRecord, hb, hp, ha2, pyNum]

/-- C9 counterexample: a remote entry lacking `Irank` ingests and normalizes
to a record whose rank is null, contradicting the claimed non-null rank. -/
theorem C9_counterexample :
    fetch_online respNoRank = .ok fetchRowsNoRank
    ∧ (preprocess fetchRowsNoRank).map (fun r => r.rank) = [PyVal.none] :=
  ⟨rfl, rfl⟩

/-- C9 witness: the single normalized record of a concrete remote ingestion
has its date and year non-null together and a non-null numeric box office. -/
theorem C9_witness :
    ((deriveRecord (rowsSingle.getD 0 rowDefault)).release_date.isSome
        = (deriveRecord (rowsSingle.getD 0 rowDefault)).year.isSome)
    ∧ (pyNum (deriveRecord (rowsSingle.getD 0 rowDefault)).box_office).isSome = true := by
  constructor
  · exact C9_normalized_invariant.1 rowsSingle _ (List.mem_cons_self _ _)
  · exact (C9_normalized_invariant.2 respSingle rowsSingle _ rfl
      (List.mem_cons_self _ _)).1

/-! ### Column resolution facts -/

theorem needCol_ok {o : Option (List String)} {cn : String} {c : List PyVal}
    (h : needCol o cn = .ok c) : ∃ cells, o = some cells ∧ c = inferColumn cells := by
  cases o with
  | none => cases h
  | some cells =>
      rw [needCol] at h
      cases h
      exact ⟨cells, rfl, rfl⟩

theorem getColumn_length {t : Table} {n : String} {cs : List String}
    (h : getColumn t n = some cs) : cs.length = t.cells.length := by
  rw [getColumn] at h
  cases hf : t.header.findIdx? (fun c => c = n) with
  | none => rw [hf] at h; cases h
  | some i =>
      rw [hf] at h
      cases h
      simp

theorem resolveColumn_length {t : Table} {cn : String} {cs : List String}
    (h : resolveColumn t cn = some cs) : cs.length = t.cells.length := by
  rw [resolveColumn] at h
  split at h
  · exact getColumn_length h
  · split at h
    · split at h
      · exact getColumn_length h
      · cases h
    · cases h

theorem inferColumn_length (cells : List String) :
    (inferColumn cells).length = cells.length := by
  simp [inferColumn]

/-- C10: when a local snapshot carries both a canonical column and its legacy
alias, the canonical column wins: a header containing the canonical name
resolves to the canonical column itself, the alias is consulted only when
the canonical name is absent, and the rank column of the dataset
`read_local` produces is exactly the inferred canonical `排名` column. -/
theorem C10_canonical_precedence (t : Table) (rows : List Row) :
    (∀ cn, t.header.contains cn = true → resolveColumn t cn = getColumn t cn)
    ∧ (∀ cn en, aliasOf cn = some en → t.header.contains cn = false →
        t.header.contains en = true → resolveColumn t cn = getColumn t en)
    ∧ (read_local t = .ok rows →
        rows.map (fun r => r.rank) = inferColumn ((resolveColumn t "排名").getD [])) := by
  refine ⟨?_, ?_, ?_⟩
  · intro cn h
    rw [resolveColumn, if_pos h]
  · intro cn en ha h1 h2
    have h1m : ¬ cn ∈ t.header := by simpa using h1
    have h2m : en ∈ t.header := by simpa using h2
    simp [resolveColumn, ha, h1m, h2m]
  · intro h
    cases hc1 : needCol (resolveColumn t "排名") "排名" with
    | error e => simp only [read_local, hc1] at h; cases h
    | ok c1 =>
      cases hc2 : needCol (resolveColumn t "电影名称") "电影名称" with
      | error e => simp only [read_local, hc1, hc2] at h; cases h
      | ok c2 =>
        cases hc3 : needCol (resolveColumn t "上映时间") "上映时间" with
        | error e => simp only [read_local, hc1, hc2, hc3] at h; cases h
        | ok c3 =>
          cases hc4 : needCol (resolveColumn t "总票房(万元)") "总票房(万元)" with
          | error e => simp only [read_local, hc1, hc2, hc3, hc4] at h; cases h
          | ok c4 =>
            cases hc5 : needCol (resolveColumn t "平均票价(元)") "平均票价(元)" with
            | error e => simp only [read_local, hc1, hc2, hc3, hc4, hc5] at h; cases h
            | ok c5 =>
              cases hc6 : needCol (resolveColumn t "平均场次观众数") "平均场次观众数" with
              | error e =>
                  simp only [read_local, hc1, hc2, hc3, hc4, hc5, hc6] at h
                  cases h
              | ok c6 =>
                  simp only [read_local, hc1, hc2, hc3, hc4, hc5, hc6] at h
                  cases h
                  obtain ⟨cells1, hres, hcell⟩ := needCol_ok hc1
                  have hlen : c1.length = t.cells.length := by
                    rw [hcell, inferColumn_length]
                    exact resolveColumn_length hres
                  rw [List.map_map, hres]
                  have hgoal :
                      (List.range t.cells.length).map (fun i => c1.getD i .none) = c1 := by
                    rw [← hlen]
                    exact range_map_getD c1
                  simpa [hcell] using hgoal

/-- C10 witness: on a snapshot carrying both `排名` (value 1) and `Rank`
(value 99), resolution picks the canonical column and the resulting rank
column is the inferred canonical one. -/
theorem C10_witness :
    resolveColumn c10T "排名" = getColumn c10T "排名"
    ∧ c10Rows.map (fun r => r.rank) = inferColumn ((resolveColumn c10T "排名").getD []) :=
  ⟨(C10_canonical_precedence c10T c10Rows).1 "排名" rfl,
   (C10_canonical_precedence c10T c10Rows).2.2 rfl⟩
